import Mathlib

/-!
Shallow embedding of `src/diyrng_generator.py` (class `DIYRNGGenerator`): the
microphone-noise TRNG's entropy pool, feature extraction, conditioning
pipeline and quality metrics.

Bytes are `Nat` values below 256 and byte strings are `List Nat`.  External
primitives — the `hashlib` digests, `os.urandom`, the audio-device read, the
float-valued FFT magnitudes and the timing-jitter measurements — are
environment parameters passed to the embedded functions; everything the
repository's own code does with their results is translated literally.
-/

namespace DIYRNG

/-- `struct.pack` with `k` bytes in native byte order (little-endian on the
platforms the repository runs on): the `k` least-significant bytes of `n`,
least significant first.  `struct.pack('Q', ts)` is `packLE 8 ts` and
`struct.pack('I', pid)` is `packLE 4 pid`. -/
def packLE (k n : Nat) : List Nat :=
  (List.range k).map (fun i => n / 256 ^ i % 256)

/-- `struct.unpack('I', bs)[0]` for a 4-byte string `bs`: native byte order,
i.e. little-endian on the supported platforms — least significant byte
first. -/
def unpackLE (bs : List Nat) : Nat :=
  bs.foldr (fun b acc => b + 256 * acc) 0

/-- Written from the spec's words for comparison (claim C3 says "unsigned
32-bit big-endian integer"): most significant byte first.  This is NOT what
`struct.unpack('I', ...)` computes. -/
def unpackBE (bs : List Nat) : Nat :=
  bs.foldl (fun acc b => 256 * acc + b) 0

/-- `_von_neumann_debias(bits)`: walk the disjoint adjacent pairs
(`while i < len(bits) - 1`, step 2); when the two bits of a pair differ emit
the first one, when they are equal discard the pair; a trailing unpaired bit
is dropped. -/
def von_neumann_debias : List Nat → List Nat
  | a :: b :: rest => (if a ≠ b then [a] else []) ++ von_neumann_debias rest
  | _ => []

/-- `_collect_initial_entropy()` as a function of the pool it mutates: the
pool is EXTENDED, in order, with the microphone sample (when a live,
non-stopped stream exists), `os.urandom(32)`, the packed nanosecond timestamp
and the packed process id.  `refresh_entropy()` is exactly this function
applied to the current pool. -/
def collect_initial_entropy (pool : List Nat) (micSample : Option (List Nat))
    (urandom : Nat → List Nat) (timestamp pid : Nat) : List Nat :=
  (match micSample with
   | some m => pool ++ m
   | none => pool) ++ urandom 32 ++ packLE 8 timestamp ++ packLE 4 pid

/-- Stage 3 of `next()`:
`bytes(a ^ b for a, b in zip(stage2_hash[:32], stage2_hash[32:]))` — byte-wise
XOR of the two 32-byte halves of the stage-2 digest. -/
def xorFold (digest : List Nat) : List Nat :=
  List.zipWith (fun a b => a ^^^ b) (digest.take 32) (digest.drop 32)

/-- `collections.deque(maxlen := m)` extension: append the new elements, then
evict the oldest elements beyond the capacity `m`. -/
def dequeExtend (maxlen : Nat) (d xs : List Nat) : List Nat :=
  (d ++ xs).drop ((d ++ xs).length - maxlen)

/-- The generator state that `next()` reads and writes: `self.entropy_pool`
and `self.entropy_history` (a `deque(maxlen=10000)`). -/
structure GenState where
  entropy_pool : List Nat
  entropy_history : List Nat
deriving DecidableEq

/-- `next()`.  `sha256` and `sha512` are `hashlib.sha256` / `hashlib.sha512`
digests over the concatenation of the updated data, passed as environment
functions; `entropy` is the byte string `_collect_additional_entropy()`
returned.  Steps, literally from the source: extend the history with
`entropy[:100]`; `stage1_hash = sha256(entropy_pool + entropy)`;
`stage2_hash = sha512(stage1_hash + entropy[-32:])`; XOR-fold the stage-2
digest; return `struct.unpack('I', xor_result[:4])[0]` and set the pool to
`xor_result[4:28]`. -/
def next (sha256 sha512 : List Nat → List Nat) (s : GenState) (entropy : List Nat) :
    Nat × GenState :=
  let history := dequeExtend 10000 s.entropy_history (entropy.take 100)
  let stage1_hash := sha256 (s.entropy_pool ++ entropy)
  let stage2_hash := sha512 (stage1_hash ++ entropy.drop (entropy.length - 32))
  let xor_result := xorFold stage2_hash
  let random_int := unpackLE (xor_result.take 4)
  (random_int, ⟨(xor_result.drop 4).take 24, history⟩)

/-- `normalized_next()` given the raw `next()` output: `raw / 0xFFFFFFFF`,
taken as the exact rational value of the division. -/
def normalized_next (raw : Nat) : ℚ :=
  (raw : ℚ) / 0xFFFFFFFF

/-- The stream state `_collect_microphone_entropy` branches on:
`self.stream` is `None`, or `self.stream.is_stopped()`, or live. -/
inductive StreamStatus where
  | noStream
  | stopped
  | active
deriving DecidableEq

/-- `np.diff`: consecutive differences.  int16 arithmetic wraps modulo `2^16`,
which cannot change the low 3 bits kept by `diff2Bytes` since `8 ∣ 2^16`, so
differences are taken in `ℤ`. -/
def npDiff (xs : List Int) : List Int :=
  List.zipWith (fun a b => a - b) (xs.drop 1) xs

/-- Feature 3 of `_collect_microphone_entropy`:
`(np.diff(np.diff(audio)).astype(np.uint8) & 0x07).tobytes()` — each
second-order difference truncated to its low 3 bits (`d % 8` with the
always-nonnegative `Int.emod`). -/
def diff2Bytes (xs : List Int) : List Nat :=
  (npDiff (npDiff xs)).map (fun d => (d % 8).toNat)

/-- `_collect_microphone_entropy()`.  Environment inputs: `readResult` — the
outcome of `self.stream.read(chunk_size // 2)` decoded to int16 samples, or
the exception it raised; `fftNibbleBytes a` — the bytes
`(np.abs(np.fft.fft(a))[len(a)//2:].astype(np.uint8) & 0x0F).tobytes()`
(their float values are environment data; numpy fixes their count at
`len a - len a / 2`); `jitterByte i` — the low byte of the i-th timing-jitter
measurement; `timestamp` — `time.time_ns()`; `urandom` — `os.urandom`.
With no live stream, or when the read raises, the function returns
`os.urandom(32)`; otherwise it concatenates the debiased LSB stream, the
spectral nibbles (when at least 64 samples), the second-order-difference
bytes (when more than 2 samples), up to 10 jitter bytes and the 8-byte packed
timestamp. -/
def collect_microphone_entropy (status : StreamStatus)
    (readResult : Except Unit (List Int))
    (fftNibbleBytes : List Int → List Nat)
    (jitterByte : Nat → Nat)
    (timestamp : Nat)
    (urandom : Nat → List Nat) : List Nat :=
  match status with
  | .noStream => urandom 32
  | .stopped => urandom 32
  | .active =>
    match readResult with
    | .error _ => urandom 32
    | .ok audio_array =>
      let debiased := von_neumann_debias (audio_array.map (fun s => (s % 2).toNat))
      let spectral := if 64 ≤ audio_array.length then fftNibbleBytes audio_array else []
      let diffs := if 2 < audio_array.length then diff2Bytes audio_array else []
      let jitter := (List.range (min 10 audio_array.length)).map jitterByte
      debiased ++ spectral ++ diffs ++ jitter ++ packLE 8 timestamp

/-- `np.mean(data)` as an exact rational. -/
def listMean (xs : List Nat) : ℚ :=
  (xs.sum : ℚ) / xs.length

/-- The population variance of the data; `np.std(data)` is its square
root. -/
def listVar (xs : List Nat) : ℚ :=
  ((xs.map (fun x => ((x : ℚ) - listMean xs) ^ 2)).sum) / xs.length

/-- `len(set(data))`: the number of distinct byte values in the history. -/
def uniqueCount (xs : List Nat) : Nat :=
  xs.dedup.length

/-- The lag-1 sample covariance of `data[:-1]` against `data[1:]`;
`np.corrcoef(data[:-1], data[1:])[0, 1]` is this value divided by the product
of the two marginal standard deviations. -/
def lag1Cov (xs : List Nat) : ℚ :=
  ((List.zipWith
      (fun x y => ((x : ℚ) - listMean xs.dropLast) * ((y : ℚ) - listMean (xs.drop 1)))
      xs.dropLast (xs.drop 1)).sum) / xs.dropLast.length

/-- Result of `get_entropy_quality_metrics()`: either the bare
`{"status": "insufficient_data"}` dict, or the full record.  The reported
`std` is the square root of the stored `variance` and `serial_correlation`
the normalisation of the stored `serial_cov`; both are determined by the
exact rational fields stored here. -/
inductive MetricsResult where
  | insufficientData
  | stats (sample_size : Nat) (mean : ℚ) (variance : ℚ) (entropy_estimate : ℚ)
      (unique_bytes : Nat) (serial_cov : ℚ) (queue_size : Nat)
deriving DecidableEq

/-- `get_entropy_quality_metrics()`: with fewer than 100 bytes of history,
return `insufficient_data` before any statistic is computed; otherwise
compute and return the full record over the history bytes. -/
def get_entropy_quality_metrics (history : List Nat) (queue_size : Nat) : MetricsResult :=
  if history.length < 100 then .insufficientData
  else .stats history.length (listMean history) (listVar history)
    ((uniqueCount history : ℚ) / 256) (uniqueCount history) (lag1Cov history) queue_size

theorem von_neumann_debias_length_le : ∀ xs : List Nat,
    (von_neumann_debias xs).length ≤ xs.length / 2
  | [] => by simp [von_neumann_debias]
  | [_] => by simp [von_neumann_debias]
  | a :: b :: rest => by
    have ih := von_neumann_debias_length_le rest
    by_cases h : a = b <;> simp [von_neumann_debias, h] <;> omega

/-- C5: von Neumann debiasing walks disjoint adjacent pairs, emits the first
bit of a pair exactly when the two bits differ and discards equal pairs;
`[0,0,1,1]` yields `[]`, `[0,1,0,1]` yields `[0,0]`, and the output length is
at most `⌊input length / 2⌋` for every input. -/
theorem von_neumann_debias_spec :
    von_neumann_debias [0, 0, 1, 1] = [] ∧
    von_neumann_debias [0, 1, 0, 1] = [0, 0] ∧
    (∀ a b rest, von_neumann_debias (a :: b :: rest) =
      (if a ≠ b then [a] else []) ++ von_neumann_debias rest) ∧
    ∀ xs : List Nat, (von_neumann_debias xs).length ≤ xs.length / 2 :=
  ⟨by decide, by decide, fun _ _ _ => rfl, von_neumann_debias_length_le⟩

/-- C1 counterexample: immediately after initial seeding with no live
microphone stream the pool holds 44 bytes (32 of system entropy, the 8-byte
timestamp and the 4-byte pid appended to the empty pool), not 24. -/
theorem initial_pool_length_ne_24 :
    (collect_initial_entropy [] none (fun n => List.replicate n 0) 0 0).length = 44 ∧
    (44 : Nat) ≠ 24 := by
  refine ⟨?_, by decide⟩
  simp [collect_initial_entropy, packLE]

/-- C1 amended: `_collect_initial_entropy` (and hence `refresh_entropy()`,
which just re-runs it) APPENDS to the pool rather than keeping it at 24
bytes: the previous pool survives as a prefix and the length grows by exactly
44 bytes plus the length of any microphone sample; the pool has length 24
only as a result of `next()`'s wholesale replacement. -/
theorem collect_initial_entropy_appends (pool : List Nat) (mic : Option (List Nat))
    (urandom : Nat → List Nat) (h : (urandom 32).length = 32) (ts pid : Nat) :
    collect_initial_entropy pool mic urandom ts pid =
      pool ++ ((match mic with | some m => m | none => []) ++
        urandom 32 ++ packLE 8 ts ++ packLE 4 pid) ∧
    (collect_initial_entropy pool mic urandom ts pid).length =
      pool.length + (match mic with | some m => m.length | none => 0) + 44 := by
  cases mic <;> (simp [collect_initial_entropy, packLE, h]; try omega)

theorem collect_initial_entropy_appends_witness :
    collect_initial_entropy [1, 2] none (fun n => List.replicate n 7) 3 4 =
      [1, 2] ++ (([] : List Nat) ++ (fun n => List.replicate n 7) 32 ++
        packLE 8 3 ++ packLE 4 4) ∧
    (collect_initial_entropy [1, 2] none (fun n => List.replicate n 7) 3 4).length =
      [1, 2].length + 0 + 44 :=
  collect_initial_entropy_appends [1, 2] none (fun n => List.replicate n 7) (by simp) 3 4

/-- C2: whatever the pool length before the call, after `next()` the pool is
exactly the 24 bytes of the XOR-folded stage-2 digest that follow the 4
output bytes (`xor_result[4:28]`), wholly replacing the previous pool, and
its length is 24 — given only that the stage-2 digest has SHA-512's 64
bytes. -/
theorem next_pool_replacement (sha256 sha512 : List Nat → List Nat)
    (h512 : ∀ x, (sha512 x).length = 64) (s : GenState) (entropy : List Nat) :
    (next sha256 sha512 s entropy).2.entropy_pool =
      ((xorFold (sha512 (sha256 (s.entropy_pool ++ entropy) ++
        entropy.drop (entropy.length - 32)))).drop 4).take 24 ∧
    (next sha256 sha512 s entropy).2.entropy_pool.length = 24 := by
  refine ⟨rfl, ?_⟩
  simp [next, xorFold, h512]

theorem next_pool_replacement_witness :
    (next (fun _ => List.replicate 32 0) (fun _ => List.replicate 64 0)
      ⟨List.replicate 24 0, []⟩ (List.replicate 40 1)).2.entropy_pool.length = 24 :=
  (next_pool_replacement (fun _ => List.replicate 32 0) (fun _ => List.replicate 64 0)
    (fun _ => by simp) ⟨List.replicate 24 0, []⟩ (List.replicate 40 1)).2

/-- C3 counterexample: with a stage-2 digest whose XOR-fold begins
`01 00 00 00`, `next()` returns 1 — the little-endian reading — while the
big-endian reading of those same 4 bytes claimed by the spec is 16777216. -/
theorem next_output_not_big_endian :
    (next (fun _ => List.replicate 32 0) (fun _ => 1 :: List.replicate 63 0)
      ⟨List.replicate 24 0, []⟩ (List.replicate 40 0)).1 = 1 ∧
    unpackBE ((xorFold (1 :: List.replicate 63 0)).take 4) = 16777216 ∧
    (1 : Nat) ≠ 16777216 := by decide

theorem unpackLE_lt : ∀ bs : List Nat, (∀ b ∈ bs, b < 256) →
    unpackLE bs < 256 ^ bs.length
  | [], _ => by simp [unpackLE]
  | b :: rest, h => by
    have ih := unpackLE_lt rest (fun x hx => h x (List.mem_cons_of_mem _ hx))
    have hb := h b (List.mem_cons_self _ _)
    have hpow : (256 : Nat) ^ (b :: rest).length = 256 * 256 ^ rest.length := by
      simp [pow_succ, Nat.mul_comm]
    have : unpackLE (b :: rest) = b + 256 * unpackLE rest := rfl
    omega

theorem mem_zipWith_xor_lt : ∀ l1 l2 : List Nat, (∀ b ∈ l1, b < 256) →
    (∀ b ∈ l2, b < 256) →
    ∀ c ∈ List.zipWith (fun a b => a ^^^ b) l1 l2, c < 256
  | [], _, _, _ => by simp
  | _ :: _, [], _, _ => by simp
  | a :: t1, b :: t2, h1, h2 => by
    intro c hc
    rw [List.zipWith_cons_cons, List.mem_cons] at hc
    rcases hc with rfl | hc
    · have h256 : (256 : Nat) = 2 ^ 8 := by norm_num
      rw [h256]
      exact Nat.xor_lt_two_pow (h256 ▸ h1 a (List.mem_cons_self a t1))
        (h256 ▸ h2 b (List.mem_cons_self b t2))
    · exact mem_zipWith_xor_lt t1 t2 (fun x hx => h1 x (List.mem_cons_of_mem _ hx))
        (fun x hx => h2 x (List.mem_cons_of_mem _ hx)) c hc

theorem xorFold_mem_lt (digest : List Nat) (h : ∀ b ∈ digest, b < 256) :
    ∀ c ∈ xorFold digest, c < 256 :=
  mem_zipWith_xor_lt (digest.take 32) (digest.drop 32)
    (fun x hx => h x (List.mem_of_mem_take hx))
    (fun x hx => h x (List.mem_of_mem_drop hx))

/-- C3 amended: the integer returned by `next()` is the first 4 bytes of the
XOR-folded stage-2 digest read as an unsigned 32-bit integer in NATIVE byte
order — `struct.unpack('I', ...)`, little-endian on the supported platforms —
not big-endian; it is a 32-bit value whenever the digest consists of 64
bytes. -/
theorem next_output_little_endian (sha256 sha512 : List Nat → List Nat)
    (h512 : ∀ x, (sha512 x).length = 64)
    (hbytes : ∀ x, ∀ b ∈ sha512 x, b < 256) (s : GenState) (entropy : List Nat) :
    (next sha256 sha512 s entropy).1 =
      unpackLE ((xorFold (sha512 (sha256 (s.entropy_pool ++ entropy) ++
        entropy.drop (entropy.length - 32)))).take 4) ∧
    (next sha256 sha512 s entropy).1 < 2 ^ 32 := by
  refine ⟨rfl, ?_⟩
  have hmem : ∀ c ∈ xorFold (sha512 (sha256 (s.entropy_pool ++ entropy) ++
      entropy.drop (entropy.length - 32))), c < 256 :=
    xorFold_mem_lt _ (hbytes _)
  have hlt := unpackLE_lt ((xorFold (sha512 (sha256 (s.entropy_pool ++ entropy) ++
      entropy.drop (entropy.length - 32)))).take 4)
    (fun b hb => hmem b (List.mem_of_mem_take hb))
  have hlen : ((xorFold (sha512 (sha256 (s.entropy_pool ++ entropy) ++
      entropy.drop (entropy.length - 32)))).take 4).length = 4 := by
    simp [xorFold, h512]
  rw [hlen] at hlt
  calc (next sha256 sha512 s entropy).1 < 256 ^ 4 := hlt
    _ = 2 ^ 32 := by norm_num

theorem next_output_little_endian_witness :
    (next (fun _ => List.replicate 32 0) (fun _ => List.replicate 64 255)
      ⟨List.replicate 24 0, []⟩ []).1 =
      unpackLE ((xorFold ((fun _ : List Nat => List.replicate 64 255)
        ((fun _ : List Nat => List.replicate 32 0)
          ((List.replicate 24 0 : List Nat) ++ []) ++
          ([] : List Nat).drop (([] : List Nat).length - 32)))).take 4) ∧
    (next (fun _ => List.replicate 32 0) (fun _ => List.replicate 64 255)
      ⟨List.replicate 24 0, []⟩ []).1 < 2 ^ 32 :=
  next_output_little_endian (fun _ => List.replicate 32 0)
    (fun _ => List.replicate 64 255) (fun _ => by simp)
    (fun _ b hb => by simp_all) ⟨List.replicate 24 0, []⟩ []

/-- C4 counterexample: the 32-bit output `0xFFFFFFFF` is divided by itself,
so `normalized_next` is exactly 1 there — not strictly below 1. -/
theorem normalized_next_reaches_one :
    normalized_next 0xFFFFFFFF = 1 ∧ ¬ normalized_next 0xFFFFFFFF < 1 ∧
    0xFFFFFFFF < 2 ^ 32 := by
  norm_num [normalized_next]

/-- C4 amended: `normalized_next` divides the raw output by the maximum
32-bit value `0xFFFFFFFF = 2^32 - 1` itself, so over the 32-bit outputs its
value lies in the CLOSED interval `[0, 1]`: it is below 1 for every output
except `0xFFFFFFFF`, where it equals exactly 1. -/
theorem normalized_next_range (raw : Nat) (h : raw ≤ 0xFFFFFFFF) :
    0 ≤ normalized_next raw ∧ normalized_next raw ≤ 1 ∧
    (normalized_next raw = 1 ↔ raw = 0xFFFFFFFF) ∧
    (raw < 0xFFFFFFFF → normalized_next raw < 1) := by
  have hc : (raw : ℚ) ≤ 0xFFFFFFFF := by exact_mod_cast h
  have hpos : (0 : ℚ) < 0xFFFFFFFF := by norm_num
  refine ⟨?_, ?_, ?_, fun hlt => ?_⟩
  · simp only [normalized_next]
    positivity
  · simp only [normalized_next]
    rw [div_le_one hpos]
    exact hc
  · simp only [normalized_next]
    rw [div_eq_iff (ne_of_gt hpos), one_mul]
    norm_cast
  · simp only [normalized_next]
    rw [div_lt_one hpos]
    exact_mod_cast hlt

theorem normalized_next_range_witness :
    0 ≤ normalized_next 7 ∧ normalized_next 7 ≤ 1 ∧
    (normalized_next 7 = 1 ↔ 7 = 0xFFFFFFFF) ∧
    (7 < 0xFFFFFFFF → normalized_next 7 < 1) :=
  normalized_next_range 7 (by norm_num)

/-- C6: the conditioning in `next()` is a deterministic function of the
current pool and the gathered fresh-entropy bytes alone: two calls starting
from equal pools with equal injected entropy (the histories may even differ)
return the same output integer and produce the same replacement pool. -/
theorem next_deterministic (sha256 sha512 : List Nat → List Nat)
    (s t : GenState) (e1 e2 : List Nat)
    (hpool : s.entropy_pool = t.entropy_pool) (he : e1 = e2) :
    (next sha256 sha512 s e1).1 = (next sha256 sha512 t e2).1 ∧
    (next sha256 sha512 s e1).2.entropy_pool =
      (next sha256 sha512 t e2).2.entropy_pool := by
  subst he
  simp [next, hpool]

theorem next_deterministic_witness :
    (next (fun _ => List.replicate 32 2) (fun _ => List.replicate 64 9)
        ⟨List.replicate 24 1, []⟩ [5, 6, 7]).1 =
      (next (fun _ => List.replicate 32 2) (fun _ => List.replicate 64 9)
        ⟨List.replicate 24 1, [8, 8]⟩ [5, 6, 7]).1 ∧
    (next (fun _ => List.replicate 32 2) (fun _ => List.replicate 64 9)
        ⟨List.replicate 24 1, []⟩ [5, 6, 7]).2.entropy_pool =
      (next (fun _ => List.replicate 32 2) (fun _ => List.replicate 64 9)
        ⟨List.replicate 24 1, [8, 8]⟩ [5, 6, 7]).2.entropy_pool :=
  next_deterministic (fun _ => List.replicate 32 2) (fun _ => List.replicate 64 9)
    ⟨List.replicate 24 1, []⟩ ⟨List.replicate 24 1, [8, 8]⟩ [5, 6, 7] [5, 6, 7] rfl rfl

set_option maxRecDepth 100000 in
/-- C7 counterexample: the error-path substitute is the FIXED 32-byte
`os.urandom(32)`, not a read of the size the sample would have had — for a
successful 512-sample read (the default `chunk_size // 2` request) of
all-zero samples the sample has 784 bytes (0 debiased + 256 spectral + 510
difference + 10 jitter + 8 timestamp), while the substitute has 32. -/
theorem mic_fallback_size_differs :
    (collect_microphone_entropy .active (.error ())
        (fun a => List.replicate (a.length - a.length / 2) 0) (fun _ => 0) 0
        (fun n => List.replicate n 0)).length = 32 ∧
    (collect_microphone_entropy .active (.ok (List.replicate 512 0))
        (fun a => List.replicate (a.length - a.length / 2) 0) (fun _ => 0) 0
        (fun n => List.replicate n 0)).length = 784 ∧
    (32 : Nat) ≠ 784 := by decide

/-- C7 amended: a device-read exception inside the fresh-sample extraction of
`next()` is caught and replaced by the fixed-size fallback `os.urandom(32)` —
32 bytes, whatever size the successful sample would have had — and the
extraction returns that substitute normally, so `next()` proceeds on it and
never fails the caller. -/
theorem mic_read_error_fallback (fft : List Int → List Nat) (jit : Nat → Nat)
    (ts : Nat) (urandom : Nat → List Nat) (h : (urandom 32).length = 32) :
    collect_microphone_entropy .active (.error ()) fft jit ts urandom = urandom 32 ∧
    (collect_microphone_entropy .active (.error ()) fft jit ts urandom).length = 32 ∧
    ∀ (sha256 sha512 : List Nat → List Nat) (s : GenState),
      next sha256 sha512 s
        (collect_microphone_entropy .active (.error ()) fft jit ts urandom) =
      next sha256 sha512 s (urandom 32) :=
  ⟨rfl, h, fun _ _ _ => rfl⟩

theorem mic_read_error_fallback_witness :
    collect_microphone_entropy .active (.error ()) (fun _ => []) (fun _ => 0) 0
        (fun n => List.replicate n 3) =
      (fun n => List.replicate n 3) 32 ∧
    (collect_microphone_entropy .active (.error ()) (fun _ => []) (fun _ => 0) 0
        (fun n => List.replicate n 3)).length = 32 ∧
    ∀ (sha256 sha512 : List Nat → List Nat) (s : GenState),
      next sha256 sha512 s
        (collect_microphone_entropy .active (.error ()) (fun _ => []) (fun _ => 0) 0
          (fun n => List.replicate n 3)) =
      next sha256 sha512 s ((fun n => List.replicate n 3) 32) :=
  mic_read_error_fallback (fun _ => []) (fun _ => 0) 0
    (fun n => List.replicate n 3) (by simp)

/-- C9: with fewer than 100 bytes of history,
`get_entropy_quality_metrics()` answers only the explicit
`insufficient_data` result and computes no statistic; with at least 100
bytes it returns the full statistics record over the history. -/
theorem quality_metrics_gate (history : List Nat) (q : Nat) :
    (history.length < 100 →
      get_entropy_quality_metrics history q = .insufficientData) ∧
    (100 ≤ history.length →
      get_entropy_quality_metrics history q =
        .stats history.length (listMean history) (listVar history)
          ((uniqueCount history : ℚ) / 256) (uniqueCount history)
          (lag1Cov history) q) := by
  constructor <;> intro h
  · simp [get_entropy_quality_metrics, h]
  · rw [get_entropy_quality_metrics, if_neg (by omega)]

theorem quality_metrics_gate_witness :
    get_entropy_quality_metrics (List.replicate 50 0) 0 =
      MetricsResult.insufficientData ∧
    get_entropy_quality_metrics (List.replicate 100 7) 3 =
      .stats 100 (listMean (List.replicate 100 7)) (listVar (List.replicate 100 7))
        ((uniqueCount (List.replicate 100 7) : ℚ) / 256)
        (uniqueCount (List.replicate 100 7)) (lag1Cov (List.replicate 100 7)) 3 := by
  constructor
  · exact (quality_metrics_gate (List.replicate 50 0) 0).1 (by simp)
  · have := (quality_metrics_gate (List.replicate 100 7) 3).2 (by simp)
    simpa using this

/-- C10: each `next()` call feeds exactly `entropy[:100]` — the first 100
gathered fresh-entropy bytes, not the emitted output — into the history ring
of capacity 10000: the history grows by at most 100 entries per call, and a
history within the 10000 bound stays within it. -/
theorem history_growth_bounds (sha256 sha512 : List Nat → List Nat)
    (s : GenState) (entropy : List Nat) :
    (next sha256 sha512 s entropy).2.entropy_history =
      dequeExtend 10000 s.entropy_history (entropy.take 100) ∧
    (next sha256 sha512 s entropy).2.entropy_history.length ≤
      s.entropy_history.length + 100 ∧
    (s.entropy_history.length ≤ 10000 →
      (next sha256 sha512 s entropy).2.entropy_history.length ≤ 10000) := by
  refine ⟨by simp only [next], ?_, fun hb => ?_⟩ <;>
    (simp only [next, dequeExtend, List.length_drop, List.length_append,
      List.length_take]; omega)

theorem history_growth_bounds_witness :
    (next (fun _ => List.replicate 32 0) (fun _ => List.replicate 64 0)
        ⟨[], List.replicate 5 2⟩ (List.replicate 7 1)).2.entropy_history =
      dequeExtend 10000 (List.replicate 5 2) ((List.replicate 7 1).take 100) ∧
    (next (fun _ => List.replicate 32 0) (fun _ => List.replicate 64 0)
        ⟨[], List.replicate 5 2⟩ (List.replicate 7 1)).2.entropy_history.length ≤
      (List.replicate 5 2 : List Nat).length + 100 ∧
    (next (fun _ => List.replicate 32 0) (fun _ => List.replicate 64 0)
        ⟨[], List.replicate 5 2⟩ (List.replicate 7 1)).2.entropy_history.length ≤
      10000 := by
  have h := history_growth_bounds (fun _ => List.replicate 32 0)
    (fun _ => List.replicate 64 0) ⟨[], List.replicate 5 2⟩ (List.replicate 7 1)
  exact ⟨h.1, h.2.1, h.2.2 (by simp)⟩

end DIYRNG
